import Mathlib

/-!
# Verification of the bmad-orchestrator execution core

Shallow embedding of `scripts/bmad/status.py`, `scripts/bmad/executor.py`
and `scripts/bmad/cli.py` of the `claude-devcontainer` repository, together
with proofs of the claims about them.

Conventions used throughout:
* Python `str` is modelled as Lean `String` (or `List Char` where we need
  to reason about individual characters of a file).
* Python dictionaries backed by the filesystem (lock directories, the
  dispatch ledger) are modelled as association lists `List (String × α)`
  whose keys are pairwise distinct (filenames are unique).
* Python `None` is modelled by `Option.none`; the truthiness test
  `if x:` on an optional string is modelled by `pyTruthy`.
* External effects (reading the sprint-status file, running the supervised
  subprocess, the process table) are modelled as oracles supplied to the
  embedded functions: the loop in `run_story_to_completion` consumes, at
  iteration `n`, the load outcome `env.load n` and the dispatch outcome
  `env.dispatch n`.
-/

namespace Bmad

/-- ASCII code points Python's `str.strip()` / `str.lstrip()` treat as
whitespace (the whitespace characters that can occur in a text file:
space, tab, newline, carriage return, vertical tab, form feed, the
C1 separators, NEL, NBSP and the Unicode space separators). -/
def pySpaceCodes : List Nat :=
  [32, 9, 10, 13, 11, 12, 28, 29, 30, 31, 133, 160, 5760,
   8192, 8193, 8194, 8195, 8196, 8197, 8198, 8199, 8200, 8201, 8202,
   8232, 8233, 8239, 8287, 12288]

/-- Whether a character is Python whitespace. -/
def pySpace (c : Char) : Bool := pySpaceCodes.contains c.toNat

/-- Python truthiness of an optional string: `None` and `""` are falsy. -/
def pyTruthy : Option String → Bool
  | none => false
  | some s => s ≠ ""

/-- Dictionary lookup in an association list (Python `d.get(k)` /
`k in d` followed by `d[k]`). -/
def lookupKey (k : String) (l : List (String × α)) : Option α :=
  (l.find? (fun p => p.1 = k)).map (fun p => p.2)

/-! ## status.py : data model and the action planner -/

/-- `Action` dataclass of `status.py`. -/
structure Action where
  type : String
  story_id : String
  skill : String
deriving DecidableEq, Repr

/-- Ordering of story entries by story id, used for
`sorted(status.stories.items(), key=lambda x: x[0])`. -/
def keyLe (a b : String × String) : Prop := a.1 ≤ b.1

instance : DecidableRel keyLe := fun a b => by
  unfold keyLe; infer_instance

instance : IsTotal (String × String) keyLe :=
  ⟨fun a b => le_total a.1 b.1⟩

instance : IsTrans (String × String) keyLe :=
  ⟨fun _ _ _ h h2 => le_trans h h2⟩

/-- The statuses give work in `get_next_action`, in priority order. -/
def plannedStatuses : List String :=
  ["in-progress", "review", "ready-for-dev", "backlog"]

/-- One scan of `get_next_action`: the first story (in the given order)
that is not skipped and has status `st`. -/
def findStory (stories : List (String × String)) (skip : List String)
    (st : String) : Option (String × String) :=
  stories.find? (fun p => !(skip.contains p.1) && p.2 == st)

/-- `sorted_stories = sorted(status.stories.items(), key=lambda x: x[0])`
of `get_next_action`. -/
def sorted_stories (stories : List (String × String)) :
    List (String × String) :=
  stories.insertionSort keyLe

/-- `get_next_action` of `status.py`: stories are sorted by id, then the
four priority scans run in order (in-progress → dev-story,
review → code-review, ready-for-dev → dev-story, backlog → create-story). -/
def get_next_action (stories : List (String × String))
    (skip : List String) : Option Action :=
  match findStory (sorted_stories stories) skip "in-progress" with
  | some p => some ⟨"dev-story", p.1, "bmad:bmm:workflows:dev-story"⟩
  | none =>
    match findStory (sorted_stories stories) skip "review" with
    | some p => some ⟨"code-review", p.1, "bmad:bmm:workflows:code-review"⟩
    | none =>
      match findStory (sorted_stories stories) skip "ready-for-dev" with
      | some p => some ⟨"dev-story", p.1, "bmad:bmm:workflows:dev-story"⟩
      | none =>
        match findStory (sorted_stories stories) skip "backlog" with
        | some p => some ⟨"create-story", p.1, "bmad:bmm:workflows:create-story"⟩
        | none => none

/-- A story entry is eligible for status `st`: not excluded and has
exactly that status. -/
def eligible (skip : List String) (st : String) (p : String × String) : Prop :=
  p.1 ∉ skip ∧ p.2 = st

/-! ## executor.py : exit-status decoding of the supervised dispatch -/

/-- Outcome of `os.waitpid` as tested by `os.WIFEXITED` /
`os.WIFSIGNALED` (the final `else` branch of the decoder corresponds to
any other wait status). -/
inductive WaitStatus where
  | exited (code : Nat)
  | signaledBy (sig : Nat)
  | otherStatus
deriving DecidableEq, Repr

/-- `ExecutionResult` dataclass of `executor.py` (duration omitted:
wall-clock time is external to this model). -/
structure ExecutionResult where
  status : String
  story_id : String
  exit_code : Option Nat := none
  message : String := ""
deriving DecidableEq, Repr

/-- Exit-code extraction of `dispatch_to_instance`: a normal exit keeps
the child's code; death by signal is reported as `0` when the supervisor
itself terminated the child after seeing the signal file
(`was_signaled`), as `128 + signal` otherwise; any other wait status
maps to `1`. -/
def extract_exit_code : WaitStatus → Bool → Nat
  | .exited c, _ => c
  | .signaledBy _, true => 0
  | .signaledBy s, false => 128 + s
  | .otherStatus, _ => 1

/-- `dispatch_to_instance` of `executor.py` with `dry_run = False`, after
`_pty_spawn_with_signal` returned `(exit_status, was_signaled)`: builds
the `ExecutionResult` from the decoded exit code. -/
def dispatch_to_instance (action : Action) (exit_status : WaitStatus)
    (was_signaled : Bool) : ExecutionResult :=
  let exit_code := extract_exit_code exit_status was_signaled
  { status := if exit_code = 0 then "success" else "failed"
    story_id := action.story_id
    exit_code := some exit_code }

/-! ## executor.py : the per-story phase loop -/

/-- `StoryResult` dataclass of `executor.py`. -/
structure StoryResult where
  story_id : String
  final_status : String
  phases_completed : List String := []
  intervention_reason : Option String := none
deriving DecidableEq, Repr

/-- `EpicResult` dataclass of `executor.py`. -/
structure EpicResult where
  epic_id : String
  stories_completed : List String := []
  stories_failed : List String := []
  stories_skipped : List String := []
deriving DecidableEq, Repr

/-- `_get_action_for_status` of `executor.py`: the fixed status → action
table (backlog → create-story, ready-for-dev → dev-story,
in-progress → dev-story, review → code-review). -/
def get_action_for_status (story_id status : String) : Option Action :=
  if status = "backlog" then
    some ⟨"create-story", story_id, "bmad:bmm:workflows:create-story"⟩
  else if status = "ready-for-dev" then
    some ⟨"dev-story", story_id, "bmad:bmm:workflows:dev-story"⟩
  else if status = "in-progress" then
    some ⟨"dev-story", story_id, "bmad:bmm:workflows:dev-story"⟩
  else if status = "review" then
    some ⟨"code-review", story_id, "bmad:bmm:workflows:code-review"⟩
  else none

/-- The environment a run of `run_story_to_completion` interacts with.
At loop iteration `n` the code observes `load n` — the outcome of
`load_sprint_status` (`.error msg` models a raised
`FileNotFoundError`/`ValueError`, `.ok none` a snapshot without the
story, `.ok (some st)` the story's status) — and, if it dispatches,
`dispatch n` — the `ExecutionResult` of `dispatch_to_instance`. -/
structure StoryEnv where
  load : Nat → Except String (Option String)
  dispatch : Nat → ExecutionResult

/-- The stuck message of `run_story_to_completion`
(`max_same_status_retries = 3`). -/
def stuckMessage (current_status : String) : String :=
  "Status unchanged after 3 attempts (stuck at " ++
    (Char.ofNat 39).toString ++ current_status ++ (Char.ofNat 39).toString ++ ")"

/-- The loop body of `run_story_to_completion`.  `n` is `phase_num`,
`fuel` the number of loop iterations left (`max_phases - phase_num`).
Besides the `StoryResult` of the source it returns the number of calls
made to `dispatch_to_instance` (ghost instrumentation used to state that
no further phase is dispatched). -/
def run_story_loop (env : StoryEnv) (story_id : String) :
    Nat → Nat → Option String → Nat → List String → StoryResult × Nat
  | _, 0, _, _, phases_completed =>
    (⟨story_id, "max_phases", phases_completed,
      some "Exceeded 10 total phases"⟩, 0)
  | n, fuel + 1, previous_status, same_status_count, phases_completed =>
    match env.load n with
    | .error e => (⟨story_id, "failed", phases_completed, some e⟩, 0)
    | .ok none =>
      (⟨story_id, "not_found", phases_completed,
        some ("Story " ++ story_id ++ " not found in status file")⟩, 0)
    | .ok (some current_status) =>
      if current_status = "done" then
        (⟨story_id, "done", phases_completed, none⟩, 0)
      else if current_status = "blocked" then
        (⟨story_id, "blocked", phases_completed,
          some "Story marked as blocked"⟩, 0)
      else
        let count := if previous_status = some current_status then
          same_status_count + 1 else 0
        if 3 ≤ count then
          (⟨story_id, current_status, phases_completed,
            some (stuckMessage current_status)⟩, 0)
        else
          match get_action_for_status story_id current_status with
          | none =>
            (⟨story_id, current_status, phases_completed,
              some ("No action for status: " ++ current_status)⟩, 0)
          | some action =>
            let result := env.dispatch n
            if result.status ≠ "success" then
              (⟨story_id, result.status, phases_completed,
                some result.message⟩, 1)
            else
              let rest := run_story_loop env story_id (n + 1) fuel
                (some current_status) count (phases_completed ++ [action.type])
              (rest.1, rest.2 + 1)

/-- `run_story_to_completion` of `executor.py` (`max_phases = 10`),
instrumented with the number of dispatched phases. -/
def run_story_to_completion (env : StoryEnv) (story_id : String) :
    StoryResult × Nat :=
  run_story_loop env story_id 0 10 none 0 []

/-- The value of the loop's `same_status_count` after the update of
iteration `m`, reconstructed from the status sequence alone: iteration
0 compares against `previous_status = None` (count 0), and each later
iteration increments on an unchanged status and resets to 0 otherwise.
The stuck guard fires at iteration `m` exactly when
`histCount f m ≥ 3`. -/
def histCount (f : Nat → String) : Nat → Nat
  | 0 => 0
  | m + 1 => if f (m + 1) = f m then histCount f m + 1 else 0

/-! ## executor.py : the epic runner -/

/-- The loop of `run_epic_to_completion` over the epic's member stories.
`runner` is the outcome of `run_story_to_completion` for a member (each
member is run at most once, so a per-story oracle is faithful);
`statusOf` is the status snapshot loaded at the start of the epic run.
Returns `(stories_completed, stories_failed, invoked)` where `invoked`
is the list of members for which the story runner was actually called
(ghost instrumentation). -/
def run_epic_loop (runner : String → StoryResult)
    (statusOf : String → Option String) :
    List String → List String × List String × List String
  | [] => ([], [], [])
  | story_id :: rest =>
    if statusOf story_id = some "done" then
      let r := run_epic_loop runner statusOf rest
      (story_id :: r.1, r.2.1, r.2.2)
    else
      let result := runner story_id
      if result.final_status = "done" then
        let r := run_epic_loop runner statusOf rest
        (story_id :: r.1, r.2.1, story_id :: r.2.2)
      else if pyTruthy result.intervention_reason then
        ([], [story_id ++ ": " ++ result.intervention_reason.getD ""],
          [story_id])
      else
        ([], [story_id], [story_id])

/-- Python's `s.replace(pat, repl)` for a non-empty pattern, on
character lists, with fuel (one unit per character consumed, so
`l.length` suffices): left-to-right, non-overlapping occurrences. -/
def replaceFuel (pat repl : List Char) : Nat → List Char → List Char
  | _, [] => []
  | 0, l => l
  | fuel + 1, c :: cs =>
    if pat ≠ [] ∧ pat.isPrefixOf (c :: cs) then
      repl ++ replaceFuel pat repl fuel ((c :: cs).drop pat.length)
    else c :: replaceFuel pat repl fuel cs

/-- Python's `s.replace(pat, repl)` on strings (non-empty pattern). -/
def pyReplace (s pat repl : String) : String :=
  String.mk (replaceFuel pat.toList repl.toList s.toList.length s.toList)

/-- The member list `epic_stories` computed by `run_epic_to_completion`:
the story ids of the snapshot, sorted ascending, restricted to those
starting with `epic_num + "-"` where
`epic_num = epic_id.replace("epic-", "")`. -/
def epic_stories (stories : List (String × String)) (epic_id : String) :
    List String :=
  ((stories.map Prod.fst).insertionSort (· ≤ ·)).filter
    (fun sid => ((pyReplace epic_id "epic-" "") ++ "-").toList.isPrefixOf
      sid.toList)

/-- `run_epic_to_completion` of `executor.py`, given the status snapshot
`stories` loaded at the start and the story-runner oracle.  The member
stories are the sorted story ids that start with the epic number
followed by a dash; paired with the ghost list of members actually run. -/
def run_epic_to_completion (stories : List (String × String))
    (runner : String → StoryResult) (epic_id : String) :
    EpicResult × List String :=
  if (epic_stories stories epic_id).isEmpty then
    (⟨epic_id, [], ["No stories found for " ++ epic_id], []⟩, [])
  else
    let r := run_epic_loop runner (fun sid => lookupKey sid stories)
      (epic_stories stories epic_id)
    (⟨epic_id, r.1, r.2.1, []⟩, r.2.2)

/-! ## cli.py : run locks

The lock directory `.claude/.bmad-running` is modelled as
`Option (List (String × LockFile))`: `none` means the directory does not
exist, `some files` that it exists and holds one file per story id.
`get_lock_dir` (and hence `get_lock_file`) creates the directory, so
every operation below first coerces the state with `Option.getD []`. -/

/-- Parsed content of a run-lock file (`create_run_lock` of `cli.py`).
The Lean field `instance_name` is the JSON field `instance` (`instance`
is a keyword in Lean). -/
structure LockData where
  story_id : String
  action : String
  starting_status : Option String
  pid : Nat
  started : String
  instance_name : String
deriving DecidableEq, Repr

/-- A lock file on disk: either valid JSON for a `LockData` or
unparseable content (`json.JSONDecodeError` on read). -/
inductive LockFile where
  | corrupt
  | valid (data : LockData)
deriving DecidableEq, Repr

/-- The lock directory: `none` = directory absent. -/
def LockDir : Type := Option (List (String × LockFile))

/-- `create_run_lock` of `cli.py`: ensures the directory exists and
writes `<story_id>.json` (overwriting any previous file of that name).
`pid`, `started` and `instance_name` come from the environment
(`os.getpid()`, `datetime.now()`, `get_instance_name() or "local"`). -/
def create_run_lock (st : LockDir) (story_id action : String)
    (starting_status : Option String) (pid : Nat)
    (started instance_name : String) : LockDir :=
  some ((story_id,
      .valid ⟨story_id, action, starting_status, pid, started, instance_name⟩) ::
    (st.getD []).filter (fun p => p.1 ≠ story_id))

/-- The rewrite `update_lock_status` applies to the lock-file content:
`lock_data["starting_status"] = status` followed by the JSON write a
parsed file, `pass` (content untouched) on `json.JSONDecodeError`. -/
def updateLockFile (starting_status : String) : LockFile → LockFile
  | .corrupt => .corrupt
  | .valid d => .valid { d with starting_status := some starting_status }

/-- `update_lock_status` of `cli.py` (identical logic to
`_update_lock_starting_status` of `executor.py`): if the story's lock
file exists and parses, rewrite it with `starting_status` replaced;
a missing file returns immediately and a corrupt file is left unchanged
(`except (json.JSONDecodeError, OSError): pass`) — neither raises. -/
def update_lock_status (st : LockDir) (story_id starting_status : String) :
    LockDir :=
  some ((st.getD []).map (fun p =>
    if p.1 = story_id then (p.1, updateLockFile starting_status p.2) else p))

/-- `remove_run_lock` of `cli.py`: unlink `<story_id>.json` if present,
then remove the lock directory if it is now empty. -/
def remove_run_lock (st : LockDir) (story_id : String) : LockDir :=
  if ((st.getD []).filter (fun p => p.1 ≠ story_id)).isEmpty then none
  else some ((st.getD []).filter (fun p => p.1 ≠ story_id))

/-- `load_run_locks` of `cli.py`: parse every lock file in the
directory, skipping unparseable ones. -/
def load_run_locks (st : LockDir) : List (String × LockData) :=
  (st.getD []).filterMap (fun p =>
    match p.2 with
    | .corrupt => none
    | .valid d => some (p.1, d))

/-! ## cli.py : stale-dispatch detection -/

/-- One value of the dispatch ledger (`record_dispatch` of `cli.py`).
The Lean field `instance_name` is the JSON field `instance`. -/
structure DispatchInfo where
  action : String
  instance_name : String
  instance_path : String
  started : String
deriving DecidableEq, Repr

/-- A stale entry reported by `get_stale_dispatches`. -/
structure StaleEntry where
  story_id : String
  instance_name : String
  instance_path : String
  action : String
  started : String
deriving DecidableEq, Repr

/-- The environment `get_stale_dispatches` probes: the lock files found
under each path (`load_run_locks(Path(p))`), whether the auditor runs
inside a devcontainer, and the two liveness checks
(`is_process_running` and `is_process_running_in_container`). -/
structure StaleEnv where
  locksAt : String → List (String × LockData)
  inside_devcontainer : Bool
  localAlive : Nat → Bool
  containerAlive : String → Nat → Bool

/-- The `is_running` computation of `get_stale_dispatches` for one
dispatch record: locks are read from the record's `instance_path` (the
project root when that field is empty), and liveness of the lock's pid
is checked locally when inside a devcontainer, via the container probe
otherwise.  A record without a lock file is not running. -/
def dispatchIsRunning (env : StaleEnv) (project : String)
    (story_id : String) (info : DispatchInfo) : Bool :=
  match lookupKey story_id (env.locksAt
      (if info.instance_path ≠ "" then info.instance_path else project)) with
  | some lock =>
    if env.inside_devcontainer then env.localAlive lock.pid
    else env.containerAlive info.instance_name lock.pid
  | none => false

/-- `get_stale_dispatches` of `cli.py`: every ledger record whose
process cannot be confirmed running becomes a stale entry. -/
def get_stale_dispatches (env : StaleEnv) (project : String)
    (dispatched : List (String × DispatchInfo)) : List StaleEntry :=
  dispatched.filterMap (fun p =>
    if dispatchIsRunning env project p.1 p.2 then none
    else some ⟨p.1, p.2.instance_name, p.2.instance_path, p.2.action,
      p.2.started⟩)

/-! ## executor.py : `update_story_status` text manipulation

File content is modelled as `List Char` so that Python's
`content.split("\n")`, `line.strip()`, `line.lstrip()` and string
concatenation can be reasoned about character by character. -/

/-- The newline character. -/
def nlChar : Char := Char.ofNat 10

/-- Python's `s.split(sep)` for a one-character separator:
`splitOnChar c [] = [[]]` and every occurrence of `c` starts a new
piece. -/
def splitOnChar (sep : Char) : List Char → List (List Char)
  | [] => [[]]
  | c :: cs =>
    if c = sep then [] :: splitOnChar sep cs
    else
      match splitOnChar sep cs with
      | [] => [[c]]
      | piece :: rest => (c :: piece) :: rest

/-- Python `line.lstrip()`. -/
def pyLstrip (l : List Char) : List Char := l.dropWhile pySpace

/-- Python `line.strip()`. -/
def pyStrip (l : List Char) : List Char :=
  ((pyLstrip l).reverse.dropWhile pySpace).reverse

/-- The leading indentation `line[: len(line) - len(line.lstrip())]`. -/
def pyIndent (l : List Char) : List Char := l.takeWhile pySpace

/-- One iteration of the line loop in `update_story_status`: a line
whose stripped text starts with `story_id:` is replaced by
`indent + story_id + ": " + new_status`; every other line is kept. -/
def updateLine (story_id new_status line : List Char) : List Char :=
  let stripped := pyStrip line
  if (story_id ++ [':']).isPrefixOf stripped then
    pyIndent line ++ story_id ++ ':' :: ' ' :: new_status
  else line

/-- Python's `sep.join(lines)` for a one-character separator. -/
def joinSep (sep : Char) : List (List Char) → List Char
  | [] => []
  | [l] => l
  | l :: ls => l ++ sep :: joinSep sep ls

/-- `update_story_status` of `executor.py` applied to the file content:
split on newlines, rewrite the matching lines, join with newlines. -/
def update_story_status (content story_id new_status : List Char) :
    List Char :=
  joinSep nlChar
    ((splitOnChar nlChar content).map (updateLine story_id new_status))

/-! ## Concrete instances used to exercise the theorems -/

/-- The `ExecutionResult` of a dispatch whose child exited cleanly. -/
def successResult (story_id : String) : ExecutionResult :=
  ⟨"success", story_id, some 0, ""⟩

/-- Environment whose status file always reads `review` and whose
dispatches all succeed. -/
def envStuck : StoryEnv :=
  ⟨fun _ => .ok (some "review"), fun _ => successResult "w-1"⟩

/-- Statuses in the repeating pattern `review, review, backlog, ...`:
a status may repeat once consecutively, so the same-status counter
reaches 1 but never 3 — the stuck guard never fires — yet no status is
terminal, so the run exhausts all 10 phases. -/
def repStatus (n : Nat) : String :=
  if n % 3 = 2 then "backlog" else "review"

/-- The action the fixed table assigns to `repStatus n`. -/
def repAction (n : Nat) : Action :=
  if n % 3 = 2 then ⟨"create-story", "w-2", "bmad:bmm:workflows:create-story"⟩
  else ⟨"code-review", "w-2", "bmad:bmm:workflows:code-review"⟩

/-- Environment with the repeating statuses and succeeding dispatches. -/
def envRepeating : StoryEnv :=
  ⟨fun n => .ok (some (repStatus n)), fun _ => successResult "w-2"⟩

/-- Environment whose status file always reads `done`. -/
def envDone : StoryEnv :=
  ⟨fun _ => .ok (some "done"), fun _ => successResult "w-3"⟩

/-- Environment whose status file always reads `blocked`. -/
def envBlocked : StoryEnv :=
  ⟨fun _ => .ok (some "blocked"), fun _ => successResult "w-3"⟩

/-- Environment whose status file does not list the story. -/
def envMissing : StoryEnv :=
  ⟨fun _ => .ok none, fun _ => successResult "w-3"⟩

/-- Environment whose dispatch fails with exit code 2; the
`ExecutionResult` carries the empty message, exactly as
`dispatch_to_instance` builds it for a non-zero exit. -/
def envDispatchFail : StoryEnv :=
  ⟨fun _ => .ok (some "ready-for-dev"),
   fun _ => ⟨"failed", "1-1-a", some 2, ""⟩⟩

/-- The story runner determined by `envDispatchFail`. -/
def failingRunner (story_id : String) : StoryResult :=
  (run_story_to_completion envDispatchFail story_id).1

/-- A one-story snapshot whose story fails with an empty reason. -/
def snapshotC6 : List (String × String) := [("1-1-a", "ready-for-dev")]

/-- The epic snapshot of the spec's scenario: one member `done`, one
runnable, one that will fail. -/
def snapshotEpic : List (String × String) :=
  [("1-1-a", "done"), ("1-2-b", "ready-for-dev"), ("1-3-c", "backlog")]

/-- Story runner for the epic scenario: `1-2-b` ends blocked with a
reason, everything else completes. -/
def runnerEpic (story_id : String) : StoryResult :=
  if story_id = "1-2-b" then
    ⟨"1-2-b", "blocked", [], some "Story marked as blocked"⟩
  else ⟨story_id, "done", [], none⟩

/-- A sample parsed run-lock file. -/
def lockSample : LockData :=
  ⟨"s-1", "run-story", some "review", 42, "t0", "alpha"⟩

/-- Stale-audit environment: instance path `/inst/a` holds the lock of
`s-1` whose pid 42 is alive in container `alpha`; the probe runs on the
host (outside the devcontainer). -/
def staleEnvSample : StaleEnv :=
  ⟨fun path => if path = "/inst/a" then [("s-1", lockSample)] else [],
   false,
   fun _ => false,
   fun name pid => name == "alpha" && pid == 42⟩

/-- Dispatch record whose process is still alive. -/
def infoAlive : DispatchInfo := ⟨"run-story", "alpha", "/inst/a", "t0"⟩

/-- Dispatch record whose lock file is gone. -/
def infoDead : DispatchInfo := ⟨"run-story", "beta", "/inst/b", "t1"⟩

/-- A two-record dispatch ledger. -/
def dispatchedSample : List (String × DispatchInfo) :=
  [("s-1", infoAlive), ("s-2", infoDead)]

/-- An absent lock directory. -/
def emptyLockDir : LockDir := none

/-- A lock directory with one parseable and one corrupt lock file. -/
def lockDirSample : LockDir :=
  some [("s-1", .valid lockSample), ("s-2", .corrupt)]

/-- Sample sprint-status content: three lines, the second holding the
story `s-1`. -/
def contentC10 : List Char :=
  "project: demo".toList ++ nlChar ::
    ("  s-1: backlog".toList ++ nlChar :: "  s-2: done".toList)

/-! ## Helper lemmas -/

/-- `List.find?` on a `Pairwise r` list returns an element that is
equal to, or `r`-below, every other element satisfying the predicate. -/
theorem find?_min_of_pairwise {α : Type} {r : α → α → Prop} {p : α → Bool}
    {a : α} :
    ∀ {l : List α}, l.Pairwise r → l.find? p = some a →
      ∀ b ∈ l, p b → a = b ∨ r a b := by
  intro l
  induction l with
  | nil => intro _ h; simp at h
  | cons x xs ih =>
    intro hpw hf b hb hpb
    rcases List.pairwise_cons.mp hpw with ⟨hx, hxs⟩
    by_cases hpx : p x
    · rw [List.find?_cons_of_pos _ hpx] at hf
      cases hf
      rw [List.mem_cons] at hb
      rcases hb with hb | hb
      · exact Or.inl hb.symm
      · exact Or.inr (hx b hb)
    · rw [List.find?_cons_of_neg _ hpx] at hf
      rw [List.mem_cons] at hb
      rcases hb with hb | hb
      · subst hb; exact absurd hpb hpx
      · exact ih hxs hf b hb hpb

/-- The boolean predicate of `findStory` decides `eligible`. -/
theorem findStory_pred_iff {skip : List String} {st : String}
    {p : String × String} :
    (!(skip.contains p.1) && p.2 == st) = true ↔ eligible skip st p := by
  simp [eligible, List.contains]

/-- `findStory` returns `none` iff no entry is eligible. -/
theorem findStory_eq_none {stories : List (String × String)}
    {skip : List String} {st : String} :
    findStory stories skip st = none ↔
      ∀ p ∈ stories, ¬ eligible skip st p := by
  unfold findStory
  rw [List.find?_eq_none]
  constructor
  · intro h p hp he
    exact h p hp (findStory_pred_iff.mpr he)
  · intro h p hp hb
    exact h p hp (findStory_pred_iff.mp hb)

/-- A successful `findStory` on the sorted story list returns an
eligible entry of the original list with minimal story id. -/
theorem findStory_sorted_spec {stories : List (String × String)}
    {skip : List String} {st : String} {q : String × String}
    (h : findStory (sorted_stories stories) skip st = some q) :
    q ∈ stories ∧ eligible skip st q ∧
      ∀ b ∈ stories, eligible skip st b → q.1 ≤ b.1 := by
  unfold findStory sorted_stories at h
  have hmem : q ∈ stories :=
    (List.mem_insertionSort keyLe).mp (List.mem_of_find?_eq_some h)
  have hp := List.find?_some h
  have helig : eligible skip st q := findStory_pred_iff.mp hp
  refine ⟨hmem, helig, fun b hb he => ?_⟩
  have hsorted : (stories.insertionSort keyLe).Pairwise keyLe :=
    List.sorted_insertionSort keyLe stories
  have := find?_min_of_pairwise hsorted h b
    ((List.mem_insertionSort keyLe).mpr hb) (findStory_pred_iff.mpr he)
  rcases this with rfl | hle
  · exact le_refl _
  · exact hle

/-- `findStory` on the sorted story list is `none` iff no entry of the
original list is eligible. -/
theorem findStory_sorted_eq_none {stories : List (String × String)}
    {skip : List String} {st : String} :
    findStory (sorted_stories stories) skip st = none ↔
      ∀ p ∈ stories, ¬ eligible skip st p := by
  unfold sorted_stories
  rw [findStory_eq_none]
  constructor
  · intro h p hp
    exact h p ((List.mem_insertionSort keyLe).mpr hp)
  · intro h p hp
    exact h p ((List.mem_insertionSort keyLe).mp hp)

/-- Per-entry reading of "no entry outside the exclusion set has one of
the four planned statuses". -/
theorem not_eligible_all_iff {stories : List (String × String)}
    {skip : List String} :
    ((∀ p ∈ stories, ¬ eligible skip "in-progress" p) ∧
     (∀ p ∈ stories, ¬ eligible skip "review" p) ∧
     (∀ p ∈ stories, ¬ eligible skip "ready-for-dev" p) ∧
     (∀ p ∈ stories, ¬ eligible skip "backlog" p)) ↔
      ∀ p ∈ stories, p.1 ∈ skip ∨ p.2 ∉ plannedStatuses := by
  constructor
  · rintro ⟨h1, h2, h3, h4⟩ p hp
    by_cases hs : p.1 ∈ skip
    · exact Or.inl hs
    · refine Or.inr (fun hm => ?_)
      simp only [plannedStatuses, List.mem_cons, List.not_mem_nil,
        or_false] at hm
      rcases hm with hm | hm | hm | hm
      · exact h1 p hp ⟨hs, hm⟩
      · exact h2 p hp ⟨hs, hm⟩
      · exact h3 p hp ⟨hs, hm⟩
      · exact h4 p hp ⟨hs, hm⟩
  · intro h
    refine ⟨?_, ?_, ?_, ?_⟩ <;>
      · rintro p hp ⟨hns, hst⟩
        rcases h p hp with hs | hm
        · exact hns hs
        · refine hm ?_
          rw [hst]
          simp [plannedStatuses]

/-- `get_next_action` returns `none` iff none of the four scans finds an
eligible story. -/
theorem get_next_action_none_iff (stories : List (String × String))
    (skip : List String) :
    get_next_action stories skip = none ↔
      ((∀ p ∈ stories, ¬ eligible skip "in-progress" p) ∧
       (∀ p ∈ stories, ¬ eligible skip "review" p) ∧
       (∀ p ∈ stories, ¬ eligible skip "ready-for-dev" p) ∧
       (∀ p ∈ stories, ¬ eligible skip "backlog" p)) := by
  unfold get_next_action
  cases h1 : findStory (sorted_stories stories) skip "in-progress" with
  | some q =>
    obtain ⟨hq, he, -⟩ := findStory_sorted_spec h1
    constructor
    · intro hc; exact absurd hc (by simp)
    · rintro ⟨hA, -, -, -⟩; exact (hA q hq he).elim
  | none =>
    cases h2 : findStory (sorted_stories stories) skip "review" with
    | some q =>
      obtain ⟨hq, he, -⟩ := findStory_sorted_spec h2
      constructor
      · intro hc; exact absurd hc (by simp)
      · rintro ⟨-, hB, -, -⟩; exact (hB q hq he).elim
    | none =>
      cases h3 : findStory (sorted_stories stories) skip "ready-for-dev" with
      | some q =>
        obtain ⟨hq, he, -⟩ := findStory_sorted_spec h3
        constructor
        · intro hc; exact absurd hc (by simp)
        · rintro ⟨-, -, hC, -⟩; exact (hC q hq he).elim
      | none =>
        cases h4 : findStory (sorted_stories stories) skip "backlog" with
        | some q =>
          obtain ⟨hq, he, -⟩ := findStory_sorted_spec h4
          constructor
          · intro hc; exact absurd hc (by simp)
          · rintro ⟨-, -, -, hD⟩; exact (hD q hq he).elim
        | none =>
          constructor
          · intro _
            exact ⟨findStory_sorted_eq_none.mp h1,
              findStory_sorted_eq_none.mp h2,
              findStory_sorted_eq_none.mp h3,
              findStory_sorted_eq_none.mp h4⟩
          · intro _; rfl

/-- Priority level 1 of `get_next_action`: an eligible `in-progress`
story yields a `dev-story` action for the smallest such id. -/
theorem get_next_action_ip_level (stories : List (String × String))
    (skip : List String)
    (hex : ∃ p ∈ stories, eligible skip "in-progress" p) :
    ∃ p ∈ stories, eligible skip "in-progress" p ∧
      get_next_action stories skip =
        some ⟨"dev-story", p.1, "bmad:bmm:workflows:dev-story"⟩ ∧
      ∀ q ∈ stories, eligible skip "in-progress" q → p.1 ≤ q.1 := by
  obtain ⟨p, hp, he⟩ := hex
  cases h1 : findStory (sorted_stories stories) skip "in-progress" with
  | none => exact absurd he (findStory_sorted_eq_none.mp h1 p hp)
  | some q =>
    obtain ⟨hq, heq, hmin⟩ := findStory_sorted_spec h1
    refine ⟨q, hq, heq, ?_, hmin⟩
    unfold get_next_action
    rw [h1]

/-- Priority level 2 of `get_next_action`: with no eligible
`in-progress` story, an eligible `review` story yields a `code-review`
action for the smallest such id. -/
theorem get_next_action_review_level (stories : List (String × String))
    (skip : List String)
    (hip : ∀ p ∈ stories, ¬ eligible skip "in-progress" p)
    (hex : ∃ p ∈ stories, eligible skip "review" p) :
    ∃ p ∈ stories, eligible skip "review" p ∧
      get_next_action stories skip =
        some ⟨"code-review", p.1, "bmad:bmm:workflows:code-review"⟩ ∧
      ∀ q ∈ stories, eligible skip "review" q → p.1 ≤ q.1 := by
  obtain ⟨p, hp, he⟩ := hex
  have h1 : findStory (sorted_stories stories) skip "in-progress" = none :=
    findStory_sorted_eq_none.mpr hip
  cases h2 : findStory (sorted_stories stories) skip "review" with
  | none => exact absurd he (findStory_sorted_eq_none.mp h2 p hp)
  | some q =>
    obtain ⟨hq, heq, hmin⟩ := findStory_sorted_spec h2
    refine ⟨q, hq, heq, ?_, hmin⟩
    unfold get_next_action
    rw [h1, h2]

/-- Priority level 3 of `get_next_action`: with no eligible
`in-progress` or `review` story, an eligible `ready-for-dev` story
yields a `dev-story` action for the smallest such id. -/
theorem get_next_action_ready_level (stories : List (String × String))
    (skip : List String)
    (hip : ∀ p ∈ stories, ¬ eligible skip "in-progress" p)
    (hrev : ∀ p ∈ stories, ¬ eligible skip "review" p)
    (hex : ∃ p ∈ stories, eligible skip "ready-for-dev" p) :
    ∃ p ∈ stories, eligible skip "ready-for-dev" p ∧
      get_next_action stories skip =
        some ⟨"dev-story", p.1, "bmad:bmm:workflows:dev-story"⟩ ∧
      ∀ q ∈ stories, eligible skip "ready-for-dev" q → p.1 ≤ q.1 := by
  obtain ⟨p, hp, he⟩ := hex
  have h1 : findStory (sorted_stories stories) skip "in-progress" = none :=
    findStory_sorted_eq_none.mpr hip
  have h2 : findStory (sorted_stories stories) skip "review" = none :=
    findStory_sorted_eq_none.mpr hrev
  cases h3 : findStory (sorted_stories stories) skip "ready-for-dev" with
  | none => exact absurd he (findStory_sorted_eq_none.mp h3 p hp)
  | some q =>
    obtain ⟨hq, heq, hmin⟩ := findStory_sorted_spec h3
    refine ⟨q, hq, heq, ?_, hmin⟩
    unfold get_next_action
    rw [h1, h2, h3]

/-- Priority level 4 of `get_next_action`: with no eligible
`in-progress`, `review` or `ready-for-dev` story, an eligible `backlog`
story yields a `create-story` action for the smallest such id. -/
theorem get_next_action_backlog_level (stories : List (String × String))
    (skip : List String)
    (hip : ∀ p ∈ stories, ¬ eligible skip "in-progress" p)
    (hrev : ∀ p ∈ stories, ¬ eligible skip "review" p)
    (hready : ∀ p ∈ stories, ¬ eligible skip "ready-for-dev" p)
    (hex : ∃ p ∈ stories, eligible skip "backlog" p) :
    ∃ p ∈ stories, eligible skip "backlog" p ∧
      get_next_action stories skip =
        some ⟨"create-story", p.1, "bmad:bmm:workflows:create-story"⟩ ∧
      ∀ q ∈ stories, eligible skip "backlog" q → p.1 ≤ q.1 := by
  obtain ⟨p, hp, he⟩ := hex
  have h1 : findStory (sorted_stories stories) skip "in-progress" = none :=
    findStory_sorted_eq_none.mpr hip
  have h2 : findStory (sorted_stories stories) skip "review" = none :=
    findStory_sorted_eq_none.mpr hrev
  have h3 : findStory (sorted_stories stories) skip "ready-for-dev" = none :=
    findStory_sorted_eq_none.mpr hready
  cases h4 : findStory (sorted_stories stories) skip "backlog" with
  | none => exact absurd he (findStory_sorted_eq_none.mp h4 p hp)
  | some q =>
    obtain ⟨hq, heq, hmin⟩ := findStory_sorted_spec h4
    refine ⟨q, hq, heq, ?_, hmin⟩
    unfold get_next_action
    rw [h1, h2, h3, h4]

/-! ## Claim theorems -/

/-- C1: for a supervised dispatch (`dispatch_to_instance`, `dry_run`
false): a normal exit reports the child's own exit code, with status
`success` exactly when that code is 0; death by the supervisor's own
termination signal (`was_signaled` true) reports exit code 0 and
status `success`; death by any other signal reports `128 + signal`
and status `failed`. -/
theorem c1_dispatch_exit_decoding (action : Action) :
    (∀ (c : Nat) (was_signaled : Bool),
      (dispatch_to_instance action (.exited c) was_signaled).exit_code =
        some c ∧
      ((dispatch_to_instance action (.exited c) was_signaled).status =
        "success" ↔ c = 0)) ∧
    (∀ s : Nat,
      (dispatch_to_instance action (.signaledBy s) true).exit_code =
        some 0 ∧
      (dispatch_to_instance action (.signaledBy s) true).status =
        "success") ∧
    (∀ s : Nat,
      (dispatch_to_instance action (.signaledBy s) false).exit_code =
        some (128 + s) ∧
      (dispatch_to_instance action (.signaledBy s) false).status =
        "failed") := by
  refine ⟨fun c w => ⟨rfl, ?_⟩, fun s => ⟨rfl, rfl⟩, fun s => ⟨rfl, ?_⟩⟩
  · show (if c = 0 then "success" else "failed") = "success" ↔ c = 0
    split
    · simp_all
    · simp_all
  · show (if 128 + s = 0 then "success" else "failed") = "failed"
    rw [if_neg (by omega)]

/-- C3: `get_next_action` scans the four statuses in fixed priority
order (in-progress → dev-story, review → code-review,
ready-for-dev → dev-story, backlog → create-story), picking inside one
level the eligible story with the smallest id; it returns `none` iff no
story outside the exclusion set has one of the four statuses; and with
one `review` and one `backlog` story it picks the `review` story
whatever the id order. -/
theorem c3_get_next_action_priority (stories : List (String × String))
    (skip : List String) :
    (get_next_action stories skip = none ↔
      ∀ p ∈ stories, p.1 ∈ skip ∨ p.2 ∉ plannedStatuses) ∧
    ((∃ p ∈ stories, eligible skip "in-progress" p) →
      ∃ p ∈ stories, eligible skip "in-progress" p ∧
        get_next_action stories skip =
          some ⟨"dev-story", p.1, "bmad:bmm:workflows:dev-story"⟩ ∧
        ∀ q ∈ stories, eligible skip "in-progress" q → p.1 ≤ q.1) ∧
    ((∀ p ∈ stories, ¬ eligible skip "in-progress" p) →
      (∃ p ∈ stories, eligible skip "review" p) →
      ∃ p ∈ stories, eligible skip "review" p ∧
        get_next_action stories skip =
          some ⟨"code-review", p.1, "bmad:bmm:workflows:code-review"⟩ ∧
        ∀ q ∈ stories, eligible skip "review" q → p.1 ≤ q.1) ∧
    ((∀ p ∈ stories, ¬ eligible skip "in-progress" p) →
      (∀ p ∈ stories, ¬ eligible skip "review" p) →
      (∃ p ∈ stories, eligible skip "ready-for-dev" p) →
      ∃ p ∈ stories, eligible skip "ready-for-dev" p ∧
        get_next_action stories skip =
          some ⟨"dev-story", p.1, "bmad:bmm:workflows:dev-story"⟩ ∧
        ∀ q ∈ stories, eligible skip "ready-for-dev" q → p.1 ≤ q.1) ∧
    ((∀ p ∈ stories, ¬ eligible skip "in-progress" p) →
      (∀ p ∈ stories, ¬ eligible skip "review" p) →
      (∀ p ∈ stories, ¬ eligible skip "ready-for-dev" p) →
      (∃ p ∈ stories, eligible skip "backlog" p) →
      ∃ p ∈ stories, eligible skip "backlog" p ∧
        get_next_action stories skip =
          some ⟨"create-story", p.1, "bmad:bmm:workflows:create-story"⟩ ∧
        ∀ q ∈ stories, eligible skip "backlog" q → p.1 ≤ q.1) ∧
    (∀ id1 id2 : String,
      get_next_action [(id1, "review"), (id2, "backlog")] [] =
        some ⟨"code-review", id1, "bmad:bmm:workflows:code-review"⟩) := by
  refine ⟨?_, get_next_action_ip_level stories skip,
    get_next_action_review_level stories skip,
    get_next_action_ready_level stories skip,
    get_next_action_backlog_level stories skip, ?_⟩
  · rw [get_next_action_none_iff, not_eligible_all_iff]
  · intro id1 id2
    obtain ⟨p, hp, he, hget, -⟩ :=
      get_next_action_review_level [(id1, "review"), (id2, "backlog")] []
        (by
          rintro p hp ⟨-, hst⟩
          simp only [List.mem_cons, List.not_mem_nil, or_false] at hp
          rcases hp with rfl | rfl <;> simp at hst)
        ⟨(id1, "review"), by simp, by simp [eligible]⟩
    simp only [List.mem_cons, List.not_mem_nil, or_false] at hp
    rcases hp with rfl | rfl
    · exact hget
    · exact absurd he.2 (by simp)

/-- C2: when successive status reloads keep returning the same
actionable status, `run_story_to_completion` dispatches exactly 3 phases
(not 2, not 4) and then aborts stuck, with the unchanged status as final
status and an intervention reason naming it. -/
theorem c2_stuck_after_three_phases (env : StoryEnv) (story_id s : String)
    (a : Action) (hact : get_action_for_status story_id s = some a)
    (hload : ∀ n, n < 4 → env.load n = .ok (some s))
    (hdisp : ∀ n, n < 3 → (env.dispatch n).status = "success") :
    run_story_to_completion env story_id =
      (⟨story_id, s, [a.type, a.type, a.type], some (stuckMessage s)⟩, 3) := by
  have hd : s ≠ "done" := by rintro rfl; simp [get_action_for_status] at hact
  have hb : s ≠ "blocked" := by
    rintro rfl; simp [get_action_for_status] at hact
  have h0 := hload 0 (by omega)
  have h1 := hload 1 (by omega)
  have h2 := hload 2 (by omega)
  have h3 := hload 3 (by omega)
  have d0 := hdisp 0 (by omega)
  have d1 := hdisp 1 (by omega)
  have d2 := hdisp 2 (by omega)
  unfold run_story_to_completion
  simp [run_story_loop, h0, h1, h2, h3, d0, d1, d2, hact, hd, hb]

/-- Running the loop with `k` iterations of fuel left, when every
iteration loads an actionable status, every dispatch succeeds, and the
same-status counter (`histCount`) stays below 3 throughout — the stuck
guard never fires — performs exactly `k` further phases and ends with
`max_phases`.  The last hypothesis ties the incoming loop state
(`prev`, `cnt`) to the status history. -/
theorem run_story_loop_max_phases (env : StoryEnv) (story_id : String)
    (f : Nat → String) (a : Nat → Action) :
    ∀ (k n : Nat) (prev : Option String) (cnt : Nat) (phases : List String),
    (∀ m, n ≤ m → m < n + k → env.load m = .ok (some (f m))) →
    (∀ m, n ≤ m → m < n + k →
      get_action_for_status story_id (f m) = some (a m)) →
    (∀ m, n ≤ m → m < n + k → (env.dispatch m).status = "success") →
    (∀ m, n ≤ m → m < n + k → histCount f m < 3) →
    ((n = 0 ∧ prev = none) ∨
      (∃ n2, n = n2 + 1 ∧ prev = some (f n2) ∧ cnt = histCount f n2)) →
    run_story_loop env story_id n k prev cnt phases =
      (⟨story_id, "max_phases",
        phases ++ (List.range k).map (fun i => (a (n + i)).type),
        some "Exceeded 10 total phases"⟩, k) := by
  intro k
  induction k with
  | zero =>
    intro n prev cnt phases _ _ _ _ _
    simp [run_story_loop]
  | succ k ih =>
    intro n prev cnt phases hload hact hdisp hguard hstate
    have hl := hload n (le_refl n) (by omega)
    have ha := hact n (le_refl n) (by omega)
    have hd := hdisp n (le_refl n) (by omega)
    have hdone : f n ≠ "done" := by
      intro hc; rw [hc] at ha; simp [get_action_for_status] at ha
    have hblocked : f n ≠ "blocked" := by
      intro hc; rw [hc] at ha; simp [get_action_for_status] at ha
    have hcount : (if prev = some (f n) then cnt + 1 else 0) =
        histCount f n := by
      rcases hstate with ⟨hn0, hpnone⟩ | ⟨n2, rfl, hprev, hcnt⟩
      · subst hn0
        rw [hpnone]
        simp [histCount]
      · rw [hprev, hcnt]
        by_cases hc : f (n2 + 1) = f n2
        · rw [if_pos (by rw [hc]), histCount, if_pos hc]
        · rw [if_neg (fun he => hc (Option.some.injEq _ _ ▸ he).symm),
            histCount, if_neg hc]
    have hlt3 : ¬ 3 ≤ histCount f n := by
      have := hguard n (le_refl n) (by omega)
      omega
    have ihres := ih (n + 1) (some (f n)) (histCount f n)
      (phases ++ [(a n).type])
      (fun m hm1 hm2 => hload m (by omega) (by omega))
      (fun m hm1 hm2 => hact m (by omega) (by omega))
      (fun m hm1 hm2 => hdisp m (by omega) (by omega))
      (fun m hm1 hm2 => hguard m (by omega) (by omega))
      (Or.inr ⟨n, rfl, rfl, rfl⟩)
    have harr : (phases ++ [(a n).type]) ++
        (List.range k).map (fun i => (a (n + 1 + i)).type) =
        phases ++ (List.range (k + 1)).map (fun i => (a (n + i)).type) := by
      rw [List.append_assoc]
      congr 1
      rw [List.range_succ_eq_map, List.map_cons, List.map_map]
      simp only [List.singleton_append, Nat.add_zero]
      congr 1
      apply List.map_congr_left
      intro i _
      simp only [Function.comp_apply]
      congr 2
      omega
    simp only [run_story_loop, hl, if_neg hdone, if_neg hblocked,
      hcount, if_neg hlt3, ha, hd, ihres]
    rw [harr]
    simp

/-- C4: when every dispatched phase succeeds, the status stays
actionable (never `done`/`blocked`) and the same-status counter never
reaches 3 (the stuck guard never fires — statuses may still repeat once
or twice consecutively), `run_story_to_completion` performs exactly 10
phases, never dispatches an 11th, and aborts with final status
`max_phases` and the `Exceeded 10 total phases` reason. -/
theorem c4_max_phases_exceeded (env : StoryEnv) (story_id : String)
    (f : Nat → String) (a : Nat → Action)
    (hload : ∀ n, n < 10 → env.load n = .ok (some (f n)))
    (hact : ∀ n, n < 10 → get_action_for_status story_id (f n) = some (a n))
    (hdisp : ∀ n, n < 10 → (env.dispatch n).status = "success")
    (hstuck : ∀ n, n < 10 → histCount f n < 3) :
    run_story_to_completion env story_id =
      (⟨story_id, "max_phases", (List.range 10).map (fun i => (a i).type),
        some "Exceeded 10 total phases"⟩, 10) ∧
    (run_story_to_completion env story_id).1.phases_completed.length = 10 := by
  have h := run_story_loop_max_phases env story_id f a 10 0 none 0 []
    (fun m _ hm2 => hload m (by omega))
    (fun m _ hm2 => hact m (by omega))
    (fun m _ hm2 => hdisp m (by omega))
    (fun m _ hm2 => hstuck m (by omega))
    (Or.inl ⟨rfl, rfl⟩)
  have hmap : (List.range 10).map (fun i => (a (0 + i)).type) =
      (List.range 10).map (fun i => (a i).type) := by
    apply List.map_congr_left
    intro i _
    rw [Nat.zero_add]
  unfold run_story_to_completion
  rw [h, hmap]
  refine ⟨by simp, by simp⟩

/-- C5: at any iteration of the phase loop, in any loop state: a reload
showing `done` or `blocked` returns immediately with that terminal
status and dispatches nothing further, and a reload in which the story
is absent returns `not_found` without dispatching. -/
theorem c5_terminal_statuses (env : StoryEnv) (story_id : String)
    (n fuel : Nat) (prev : Option String) (cnt : Nat)
    (phases : List String) :
    (env.load n = .ok (some "done") →
      run_story_loop env story_id n (fuel + 1) prev cnt phases =
        (⟨story_id, "done", phases, none⟩, 0)) ∧
    (env.load n = .ok (some "blocked") →
      run_story_loop env story_id n (fuel + 1) prev cnt phases =
        (⟨story_id, "blocked", phases, some "Story marked as blocked"⟩, 0)) ∧
    (env.load n = .ok none →
      run_story_loop env story_id n (fuel + 1) prev cnt phases =
        (⟨story_id, "not_found", phases,
          some ("Story " ++ story_id ++ " not found in status file")⟩, 0)) := by
  refine ⟨?_, ?_, ?_⟩ <;> intro h <;> simp [run_story_loop, h]

/-- The epic loop over members that all complete (status already `done`,
or the runner ends `done`) records every member as completed, fails
none, and invokes the runner exactly for the members that were not
already `done`. -/
theorem run_epic_loop_all_ok (runner : String → StoryResult)
    (get : String → Option String) :
    ∀ ids : List String,
    (∀ x ∈ ids, get x = some "done" ∨ (runner x).final_status = "done") →
    run_epic_loop runner get ids =
      (ids, [], ids.filter (fun x => get x ≠ some "done")) := by
  intro ids
  induction ids with
  | nil => intro _; rfl
  | cons x t ih =>
    intro hall
    have hx := hall x (by simp)
    have ht := ih (fun y hy => hall y (by simp [hy]))
    rcases hx with hx | hx
    · simp [run_epic_loop, hx, ht, List.filter_cons]
    · by_cases hgx : get x = some "done"
      · simp [run_epic_loop, hgx, ht, List.filter_cons]
      · simp [run_epic_loop, hgx, hx, ht, List.filter_cons]

/-- The epic loop over `pre ++ b :: post` where every member of `pre`
completes and `b` does not: `pre` is completed, `b` alone is recorded
failed (with `"id: reason"` format exactly when the reason is truthy),
and the runner is never invoked past `b`. -/
theorem run_epic_loop_fail (runner : String → StoryResult)
    (get : String → Option String) (b : String) (post : List String)
    (hb1 : get b ≠ some "done") (hb2 : (runner b).final_status ≠ "done") :
    ∀ pre : List String,
    (∀ x ∈ pre, get x = some "done" ∨ (runner x).final_status = "done") →
    run_epic_loop runner get (pre ++ b :: post) =
      (pre,
       [if pyTruthy (runner b).intervention_reason then
          b ++ ": " ++ (runner b).intervention_reason.getD "" else b],
       pre.filter (fun x => get x ≠ some "done") ++ [b]) := by
  intro pre
  induction pre with
  | nil =>
    intro _
    by_cases ht : pyTruthy (runner b).intervention_reason
    · simp [run_epic_loop, hb1, hb2, ht]
    · simp [run_epic_loop, hb1, hb2, ht]
  | cons x t ih =>
    intro hall
    have hx := hall x (by simp)
    have ht := ih (fun y hy => hall y (by simp [hy]))
    rcases hx with hx | hx
    · simp [run_epic_loop, hx, ht, List.filter_cons]
    · by_cases hgx : get x = some "done"
      · simp [run_epic_loop, hgx, ht, List.filter_cons]
      · simp [run_epic_loop, hgx, hx, ht, List.filter_cons]

/-- C6 (amended): `run_epic_to_completion` processes the members — the
snapshot's story ids with the epic-number prefix — in ascending id
order; a member already `done` is recorded completed without being run,
a `done` runner outcome is recorded completed and processing continues,
and any other outcome stops the epic with the member recorded in
`stories_failed` — as `"id: reason"` when its failure reason is
non-empty, as the bare id otherwise — and no later member is ever
attempted. -/
theorem c6_epic_sequencing (stories : List (String × String))
    (runner : String → StoryResult) (epic_id : String)
    (hnodup : (stories.map Prod.fst).Nodup) :
    (epic_stories stories epic_id).Pairwise (· ≤ ·) ∧
    (∀ sid, sid ∈ epic_stories stories epic_id ↔
      sid ∈ stories.map Prod.fst ∧
      ((pyReplace epic_id "epic-" "") ++ "-").toList.isPrefixOf sid.toList
        = true) ∧
    (epic_stories stories epic_id ≠ [] →
      (∀ x ∈ epic_stories stories epic_id,
        lookupKey x stories = some "done" ∨ (runner x).final_status = "done") →
      (run_epic_to_completion stories runner epic_id).1.stories_completed =
        epic_stories stories epic_id ∧
      (run_epic_to_completion stories runner epic_id).1.stories_failed = [] ∧
      (run_epic_to_completion stories runner epic_id).2 =
        (epic_stories stories epic_id).filter
          (fun x => lookupKey x stories ≠ some "done")) ∧
    (∀ pre b post, epic_stories stories epic_id = pre ++ b :: post →
      (∀ x ∈ pre,
        lookupKey x stories = some "done" ∨ (runner x).final_status = "done") →
      lookupKey b stories ≠ some "done" →
      (runner b).final_status ≠ "done" →
      (run_epic_to_completion stories runner epic_id).1.stories_completed =
        pre ∧
      (run_epic_to_completion stories runner epic_id).1.stories_failed =
        [if pyTruthy (runner b).intervention_reason then
          b ++ ": " ++ (runner b).intervention_reason.getD "" else b] ∧
      (run_epic_to_completion stories runner epic_id).2 =
        pre.filter (fun x => lookupKey x stories ≠ some "done") ++ [b] ∧
      ∀ x ∈ post, x ∉ (run_epic_to_completion stories runner epic_id).2) := by
  have hmnodup : (epic_stories stories epic_id).Nodup := by
    unfold epic_stories
    exact (((List.perm_insertionSort _ _).nodup_iff).mpr hnodup).filter _
  refine ⟨?_, ?_, ?_, ?_⟩
  · unfold epic_stories
    apply List.Pairwise.filter
    exact List.sorted_insertionSort _ _
  · intro sid
    unfold epic_stories
    simp [List.mem_filter, List.mem_insertionSort]
  · intro hne hall
    have hempty : (epic_stories stories epic_id).isEmpty = false := by
      cases h : epic_stories stories epic_id with
      | nil => exact absurd h hne
      | cons a t => rfl
    unfold run_epic_to_completion
    rw [hempty]
    have := run_epic_loop_all_ok runner
      (fun sid => lookupKey sid stories) (epic_stories stories epic_id) hall
    simp only [Bool.false_eq_true, if_false, this]
    exact ⟨trivial, trivial, trivial⟩
  · intro pre b post hsplit hpre hb1 hb2
    have hempty : (epic_stories stories epic_id).isEmpty = false := by
      rw [hsplit]
      cases pre <;> rfl
    have := run_epic_loop_fail runner (fun sid => lookupKey sid stories)
      b post hb1 hb2 pre hpre
    unfold run_epic_to_completion
    rw [hempty]
    simp only [Bool.false_eq_true, if_false, hsplit, this]
    refine ⟨trivial, trivial, trivial, ?_⟩
    intro x hx hmem
    rw [hsplit] at hmnodup
    rw [List.nodup_append] at hmnodup
    obtain ⟨hpn, hbn, hdisj⟩ := hmnodup
    rw [List.mem_append] at hmem
    rcases hmem with hmem | hmem
    · exact hdisj (List.mem_of_mem_filter hmem) (by simp [hx])
    · rw [List.mem_singleton] at hmem
      subst hmem
      exact (List.nodup_cons.mp hbn).1 hx

/-- A successful `lookupKey` exhibits a member of the list. -/
theorem mem_of_lookupKey_eq_some {α : Type} {l : List (String × α)}
    {k : String} {a : α} (h : lookupKey k l = some a) : (k, a) ∈ l := by
  unfold lookupKey at h
  cases hf : l.find? (fun p => p.1 = k) with
  | none => rw [hf] at h; cases h
  | some q =>
    rw [hf] at h
    have hq0 := List.find?_some hf
    have hq : q.1 = k := by simpa using hq0
    have hmem := List.mem_of_find?_eq_some hf
    have ha : q.2 = a := by simpa using h
    have : (k, a) = q := by rw [← hq, ← ha]
    rw [this]
    exact hmem

/-- In an association list with distinct keys, two members with the
same key are equal. -/
theorem eq_of_mem_nodup_keys {α : Type} {l : List (String × α)}
    (hn : (l.map Prod.fst).Nodup) {p q : String × α}
    (hp : p ∈ l) (hq : q ∈ l) (hk : p.1 = q.1) : p = q := by
  induction l with
  | nil => cases hp
  | cons x t ih =>
    rw [List.map_cons, List.nodup_cons] at hn
    obtain ⟨hx, ht⟩ := hn
    rw [List.mem_cons] at hp hq
    rcases hp with rfl | hp
    · rcases hq with rfl | hq
      · rfl
      · rw [hk] at hx
        exact absurd (List.mem_map_of_mem Prod.fst hq) hx
    · rcases hq with rfl | hq
      · exact absurd (hk ▸ List.mem_map_of_mem Prod.fst hp) hx
      · exact ih ht hp hq

/-- `dispatchIsRunning` is false exactly when the lock file is absent
from the effective lock directory or the lock's pid fails the
context-appropriate liveness check. -/
theorem dispatchIsRunning_eq_false_iff (env : StaleEnv) (project : String)
    (story_id : String) (info : DispatchInfo) :
    dispatchIsRunning env project story_id info = false ↔
      (lookupKey story_id (env.locksAt (if info.instance_path ≠ ""
          then info.instance_path else project)) = none ∨
       ∃ lock, lookupKey story_id (env.locksAt (if info.instance_path ≠ ""
          then info.instance_path else project)) = some lock ∧
        (if env.inside_devcontainer then env.localAlive lock.pid
         else env.containerAlive info.instance_name lock.pid) = false) := by
  unfold dispatchIsRunning
  cases hl : lookupKey story_id (env.locksAt (if info.instance_path ≠ ""
      then info.instance_path else project)) with
  | none => simp
  | some lock => simp

/-- C7: `get_stale_dispatches` classifies a ledger record as stale iff
the run-lock file is absent from the recorded instance's lock directory
(the project's own when the recorded path is empty) or the lock's pid
is not alive, with liveness checked in the local process table inside
the devcontainer and via the named-container probe otherwise; in
particular a record whose lock pid is alive is not reported stale. -/
theorem c7_stale_classification (env : StaleEnv) (project : String)
    (dispatched : List (String × DispatchInfo))
    (hnodup : (dispatched.map Prod.fst).Nodup) :
    ∀ story_id info, (story_id, info) ∈ dispatched →
      ((⟨story_id, info.instance_name, info.instance_path, info.action,
          info.started⟩ : StaleEntry) ∈
        get_stale_dispatches env project dispatched ↔
        (lookupKey story_id (env.locksAt (if info.instance_path ≠ ""
            then info.instance_path else project)) = none ∨
         ∃ lock, lookupKey story_id (env.locksAt (if info.instance_path ≠ ""
            then info.instance_path else project)) = some lock ∧
          (if env.inside_devcontainer then env.localAlive lock.pid
           else env.containerAlive info.instance_name lock.pid) = false)) := by
  intro story_id info hmem
  rw [← dispatchIsRunning_eq_false_iff]
  constructor
  · intro hst
    rw [get_stale_dispatches, List.mem_filterMap] at hst
    obtain ⟨p, hp, hfp⟩ := hst
    by_cases hrun : dispatchIsRunning env project p.1 p.2
    · rw [if_pos hrun] at hfp; cases hfp
    · rw [if_neg hrun] at hfp
      injection hfp with hfp
      have hps : p.1 = story_id := congrArg StaleEntry.story_id hfp
      have hpq : p = (story_id, info) :=
        eq_of_mem_nodup_keys hnodup hp hmem hps
      rw [hpq] at hrun
      exact Bool.not_eq_true _ ▸ hrun
  · intro hrun
    rw [get_stale_dispatches, List.mem_filterMap]
    refine ⟨(story_id, info), hmem, ?_⟩
    simp [hrun]


/-- Looking up a key in a list from which it was filtered out fails. -/
theorem lookupKey_filter_ne {α : Type} (sid : String)
    (files : List (String × α)) :
    lookupKey sid (files.filter (fun p => p.1 ≠ sid)) = none := by
  unfold lookupKey
  rw [Option.map_eq_none', List.find?_eq_none]
  intro p hp
  have h2 := (List.mem_filter.mp hp).2
  simp at h2 ⊢
  exact h2

/-- The files left by `remove_run_lock`: the story's file is gone and
everything else is kept (whether or not the directory itself was
removed). -/
theorem remove_run_lock_getD (st : LockDir) (sid : String) :
    (remove_run_lock st sid).getD [] =
      (st.getD []).filter (fun p => p.1 ≠ sid) := by
  unfold remove_run_lock
  by_cases h : ((st.getD []).filter (fun p => p.1 ≠ sid)).isEmpty
  · rw [if_pos h]
    rw [List.isEmpty_iff] at h
    rw [h]
    rfl
  · rw [if_neg h]
    rfl

/-- C8: acquiring a run lock and then releasing it, with no other lock
files present, leaves zero lock files and removes the now-empty lock
directory; `load_run_locks` in between sees exactly the acquired lock;
`remove_run_lock` always deletes the story's lock file, removes the
directory exactly when it has become empty, and (being total in this
model, as in the guarded source) completes without error when the lock
file is already absent, leaving the files unchanged. -/
theorem c8_lock_round_trip (st : LockDir) (story_id action : String)
    (starting_status : Option String) (pid : Nat)
    (started instance_name : String)
    (hother : (st.getD []).filter (fun p => p.1 ≠ story_id) = []) :
    load_run_locks (create_run_lock st story_id action starting_status pid
        started instance_name) =
      [(story_id, ⟨story_id, action, starting_status, pid, started,
        instance_name⟩)] ∧
    remove_run_lock (create_run_lock st story_id action starting_status pid
        started instance_name) story_id = none ∧
    (∀ st2 : LockDir, lookupKey story_id
        ((remove_run_lock st2 story_id).getD []) = none) ∧
    (∀ st2 : LockDir, remove_run_lock st2 story_id = none ↔
      (st2.getD []).filter (fun p => p.1 ≠ story_id) = []) ∧
    (∀ st2 : LockDir, lookupKey story_id (st2.getD []) = none →
      (remove_run_lock st2 story_id).getD [] = st2.getD []) := by
  refine ⟨?_, ?_, ?_, ?_, ?_⟩
  · unfold create_run_lock
    rw [hother]
    simp [load_run_locks]
  · unfold remove_run_lock create_run_lock
    rw [hother]
    simp [List.filter_cons]
  · intro st2
    rw [remove_run_lock_getD]
    exact lookupKey_filter_ne story_id (st2.getD [])
  · intro st2
    unfold remove_run_lock
    by_cases h : ((st2.getD []).filter (fun p => p.1 ≠ story_id)).isEmpty
    · rw [if_pos h]
      simp only [List.isEmpty_iff] at h
      exact iff_of_true rfl h
    · rw [if_neg h]
      simp only [List.isEmpty_iff] at h
      exact iff_of_false (by simp) h
  · intro st2 hnone
    rw [remove_run_lock_getD]
    rw [List.filter_eq_self]
    intro p hp
    unfold lookupKey at hnone
    rw [Option.map_eq_none', List.find?_eq_none] at hnone
    have := hnone p hp
    simp at this ⊢
    exact this


/-- Updating the entry at `sid` maps the looked-up value. -/
theorem lookupKey_map_upd (files : List (String × LockFile)) (sid : String)
    (g : LockFile → LockFile) :
    lookupKey sid (files.map
        (fun p => if p.1 = sid then (p.1, g p.2) else p)) =
      (lookupKey sid files).map g := by
  induction files with
  | nil => rfl
  | cons p t ih =>
    rw [List.map_cons]
    by_cases h : p.1 = sid
    · rw [if_pos h]
      unfold lookupKey
      rw [List.find?_cons_of_pos _ (by simpa using h),
        List.find?_cons_of_pos _ (by simpa using h)]
      simp
    · rw [if_neg h]
      unfold lookupKey at ih ⊢
      rw [List.find?_cons_of_neg _ (by simpa using h),
        List.find?_cons_of_neg _ (by simpa using h)]
      exact ih

/-- Updating the entry at `sid` leaves every other key's lookup
unchanged. -/
theorem lookupKey_map_upd_ne (files : List (String × LockFile))
    (sid k : String) (g : LockFile → LockFile) (hne : k ≠ sid) :
    lookupKey k (files.map
        (fun p => if p.1 = sid then (p.1, g p.2) else p)) =
      lookupKey k files := by
  induction files with
  | nil => rfl
  | cons p t ih =>
    rw [List.map_cons]
    by_cases hk : p.1 = k
    · have hs : ¬ p.1 = sid := by rw [hk]; exact hne
      rw [if_neg hs]
      unfold lookupKey
      rw [List.find?_cons_of_pos _ (by simpa using hk),
        List.find?_cons_of_pos _ (by simpa using hk)]
    · by_cases hs : p.1 = sid
      · rw [if_pos hs]
        unfold lookupKey at ih ⊢
        rw [List.find?_cons_of_neg _ (by simpa using hk),
          List.find?_cons_of_neg _ (by simpa using hk)]
        exact ih
      · rw [if_neg hs]
        unfold lookupKey at ih ⊢
        rw [List.find?_cons_of_neg _ (by simpa using hk),
          List.find?_cons_of_neg _ (by simpa using hk)]
        exact ih

/-- With no entry at `sid`, the update is the identity. -/
theorem map_upd_of_lookup_none (files : List (String × LockFile))
    (sid : String) (g : LockFile → LockFile)
    (h : lookupKey sid files = none) :
    files.map (fun p => if p.1 = sid then (p.1, g p.2) else p) = files := by
  have hall : ∀ p ∈ files, ¬ p.1 = sid := by
    intro p hp
    unfold lookupKey at h
    rw [Option.map_eq_none', List.find?_eq_none] at h
    have := h p hp
    simpa using this
  calc files.map (fun p => if p.1 = sid then (p.1, g p.2) else p)
      = files.map id :=
        List.map_congr_left (fun p hp => by rw [if_neg (hall p hp)]; rfl)
    _ = files := List.map_id files

/-- With a corrupt entry at `sid`, the update is the identity. -/
theorem map_upd_of_lookup_corrupt (files : List (String × LockFile))
    (sid : String) (starting_status : String)
    (hnodup : (files.map Prod.fst).Nodup)
    (h : lookupKey sid files = some .corrupt) :
    files.map (fun p =>
        if p.1 = sid then (p.1, updateLockFile starting_status p.2) else p) =
      files := by
  have hc : (sid, LockFile.corrupt) ∈ files := mem_of_lookupKey_eq_some h
  calc files.map (fun p =>
        if p.1 = sid then (p.1, updateLockFile starting_status p.2) else p)
      = files.map id := by
        apply List.map_congr_left
        intro p hp
        by_cases hps : p.1 = sid
        · have : p = (sid, LockFile.corrupt) :=
            eq_of_mem_nodup_keys hnodup hp hc hps
          rw [if_pos hps, this]
          rfl
        · rw [if_neg hps]; rfl
    _ = files := List.map_id files

/-- C9: `update_lock_status` on an existing parseable lock file
rewrites only the `starting_status` field — `story_id`, `action`,
`pid`, `started` and `instance` keep their prior values — and leaves
every other story's lock file untouched; when the lock file is missing,
or holds unparseable JSON, it returns (without raising, being total in
this model as in the guarded source) and changes no file. -/
theorem c9_update_lock_frame (st : LockDir) (story_id starting_status : String)
    (hnodup : ((st.getD []).map Prod.fst).Nodup) :
    (∀ d, lookupKey story_id (st.getD []) = some (.valid d) →
      lookupKey story_id
          ((update_lock_status st story_id starting_status).getD []) =
        some (.valid ⟨d.story_id, d.action, some starting_status, d.pid,
          d.started, d.instance_name⟩)) ∧
    (∀ k, k ≠ story_id →
      lookupKey k ((update_lock_status st story_id starting_status).getD []) =
        lookupKey k (st.getD [])) ∧
    (lookupKey story_id (st.getD []) = none →
      (update_lock_status st story_id starting_status).getD [] = st.getD []) ∧
    (lookupKey story_id (st.getD []) = some .corrupt →
      (update_lock_status st story_id starting_status).getD [] =
        st.getD []) := by
  refine ⟨?_, ?_, ?_, ?_⟩
  · intro d hd
    unfold update_lock_status
    rw [Option.getD_some, lookupKey_map_upd, hd]
    rfl
  · intro k hk
    unfold update_lock_status
    rw [Option.getD_some]
    exact lookupKey_map_upd_ne _ _ _ _ hk
  · intro hnone
    unfold update_lock_status
    rw [Option.getD_some]
    exact map_upd_of_lookup_none _ _ _ hnone
  · intro hcor
    unfold update_lock_status
    rw [Option.getD_some]
    exact map_upd_of_lookup_corrupt _ _ _ hnodup hcor


/-- `splitOnChar` never returns an empty list of pieces. -/
theorem splitOnChar_ne_nil (sep : Char) : ∀ l, splitOnChar sep l ≠ []
  | [] => by simp [splitOnChar]
  | c :: cs => by
    unfold splitOnChar
    by_cases h : c = sep
    · simp [h]
    · simp only [if_neg h]
      cases hs : splitOnChar sep cs with
      | nil => simp
      | cons p r => simp

/-- A separator-free string is a single piece. -/
theorem splitOnChar_of_not_mem (sep : Char) :
    ∀ l : List Char, sep ∉ l → splitOnChar sep l = [l]
  | [] => fun _ => rfl
  | c :: cs => fun h => by
    rw [List.mem_cons] at h
    push_neg at h
    obtain ⟨h1, h2⟩ := h
    rw [splitOnChar, if_neg (fun hc => h1 hc.symm),
      splitOnChar_of_not_mem sep cs h2]

/-- Splitting past a separator-free prefix peels it off. -/
theorem splitOnChar_append_sep (sep : Char) (t : List Char) :
    ∀ p : List Char, sep ∉ p →
      splitOnChar sep (p ++ sep :: t) = p :: splitOnChar sep t
  | [] => fun _ => by
    rw [List.nil_append, splitOnChar, if_pos rfl]
  | c :: p => fun h => by
    rw [List.mem_cons] at h
    push_neg at h
    obtain ⟨h1, h2⟩ := h
    rw [List.cons_append, splitOnChar, if_neg (fun hc => h1 hc.symm),
      splitOnChar_append_sep sep t p h2]

/-- Every piece produced by `splitOnChar` is separator-free. -/
theorem not_mem_of_mem_splitOnChar (sep : Char) :
    ∀ (l : List Char) (piece : List Char),
      piece ∈ splitOnChar sep l → sep ∉ piece
  | [], piece => by
    intro h
    simp [splitOnChar] at h
    simp [h]
  | c :: cs, piece => by
    intro h
    unfold splitOnChar at h
    by_cases hc : c = sep
    · rw [if_pos hc] at h
      rw [List.mem_cons] at h
      rcases h with rfl | h
      · simp
      · exact not_mem_of_mem_splitOnChar sep cs piece h
    · rw [if_neg hc] at h
      cases hs : splitOnChar sep cs with
      | nil => exact absurd hs (splitOnChar_ne_nil sep cs)
      | cons p r =>
        rw [hs] at h
        rw [List.mem_cons] at h
        rcases h with rfl | h
        · intro hmem
          rw [List.mem_cons] at hmem
          rcases hmem with rfl | hmem
          · exact hc rfl
          · exact not_mem_of_mem_splitOnChar sep cs p
              (hs ▸ List.mem_cons_self p r) hmem
        · exact not_mem_of_mem_splitOnChar sep cs piece
            (hs ▸ List.mem_cons_of_mem p h)

/-- `splitOnChar` is a left inverse of `joinSep` on non-empty lists of
separator-free pieces. -/
theorem splitOnChar_joinSep (sep : Char) :
    ∀ pieces : List (List Char), pieces ≠ [] →
      (∀ p ∈ pieces, sep ∉ p) →
      splitOnChar sep (joinSep sep pieces) = pieces
  | [] => fun h _ => absurd rfl h
  | [p] => fun _ hall => by
    unfold joinSep
    exact splitOnChar_of_not_mem sep p (hall p (by simp))
  | p :: q :: rest => fun _ hall => by
    show splitOnChar sep (p ++ sep :: joinSep sep (q :: rest)) = _
    rw [splitOnChar_append_sep sep _ p (hall p (by simp))]
    rw [splitOnChar_joinSep sep (q :: rest) (by simp)
      (fun x hx => hall x (List.mem_cons_of_mem p hx))]


/-- `updateLine` maps newline-free lines to newline-free lines when the
story id and the new status are newline-free. -/
theorem nlChar_not_mem_updateLine (story_id new_status line : List Char)
    (hsid : nlChar ∉ story_id) (hnew : nlChar ∉ new_status)
    (hline : nlChar ∉ line) :
    nlChar ∉ updateLine story_id new_status line := by
  unfold updateLine
  by_cases h : ((story_id ++ [':']).isPrefixOf (pyStrip line) : Bool)
  · rw [if_pos h]
    intro hmem
    rw [List.mem_append] at hmem
    rcases hmem with hmem | hmem
    · rw [List.mem_append] at hmem
      rcases hmem with hmem | hmem
      · exact hline ((List.takeWhile_sublist _).subset hmem)
      · exact hsid hmem
    · rw [List.mem_cons] at hmem
      rcases hmem with hc | hmem
      · exact absurd hc (by decide)
      · rw [List.mem_cons] at hmem
        rcases hmem with hc | hmem
        · exact absurd hc (by decide)
        · exact hnew hmem
  · rw [if_neg h]
    exact hline

/-- C10: `update_story_status` rewrites only the lines whose stripped
text begins with the story id followed by a colon: the output lines are
exactly the input lines mapped through the line rewrite, which keeps
every non-matching line byte-for-byte unchanged and turns each matching
line into its original leading indentation followed by
`story_id + ": " + new_status`; the number of lines is preserved. -/
theorem c10_update_story_status_frame
    (content story_id new_status : List Char)
    (hsid : nlChar ∉ story_id) (hnew : nlChar ∉ new_status) :
    splitOnChar nlChar (update_story_status content story_id new_status) =
      (splitOnChar nlChar content).map (updateLine story_id new_status) ∧
    (splitOnChar nlChar
        (update_story_status content story_id new_status)).length =
      (splitOnChar nlChar content).length ∧
    (∀ line : List Char,
      ¬ (story_id ++ [':']).isPrefixOf (pyStrip line) = true →
      updateLine story_id new_status line = line) ∧
    (∀ line : List Char,
      (story_id ++ [':']).isPrefixOf (pyStrip line) = true →
      updateLine story_id new_status line =
        pyIndent line ++ story_id ++ ':' :: ' ' :: new_status) := by
  have hmain : splitOnChar nlChar
      (update_story_status content story_id new_status) =
      (splitOnChar nlChar content).map (updateLine story_id new_status) := by
    unfold update_story_status
    apply splitOnChar_joinSep
    · intro hc
      rw [List.map_eq_nil_iff] at hc
      exact splitOnChar_ne_nil nlChar content hc
    · intro p hp
      rw [List.mem_map] at hp
      obtain ⟨line, hline, rfl⟩ := hp
      exact nlChar_not_mem_updateLine _ _ _ hsid hnew
        (not_mem_of_mem_splitOnChar nlChar content line hline)
  refine ⟨hmain, by rw [hmain, List.length_map], ?_, ?_⟩
  · intro line h
    unfold updateLine
    rw [if_neg h]
  · intro line h
    unfold updateLine
    rw [if_pos h]


/-! ## Concrete instantiations: witnesses and the C6 counterexample -/

/-- Witness for C1: a child exiting with code 3 is reported as exit
code 3 and not success. -/
theorem c1_exit_decoding_witness :
    (dispatch_to_instance ⟨"dev-story", "w-0", "bmad:bmm:workflows:dev-story"⟩
        (.exited 3) false).exit_code = some 3 ∧
    ((dispatch_to_instance ⟨"dev-story", "w-0", "bmad:bmm:workflows:dev-story"⟩
        (.exited 3) false).status = "success" ↔ 3 = 0) :=
  (c1_dispatch_exit_decoding
    ⟨"dev-story", "w-0", "bmad:bmm:workflows:dev-story"⟩).1 3 false

/-- Witness for C2: a story stuck at `review` completes exactly three
`code-review` phases and aborts stuck. -/
theorem c2_stuck_witness :
    get_action_for_status "w-1" "review" =
      some ⟨"code-review", "w-1", "bmad:bmm:workflows:code-review"⟩ ∧
    run_story_to_completion envStuck "w-1" =
      (⟨"w-1", "review", ["code-review", "code-review", "code-review"],
        some (stuckMessage "review")⟩, 3) :=
  ⟨by decide,
   c2_stuck_after_three_phases envStuck "w-1" "review"
     ⟨"code-review", "w-1", "bmad:bmm:workflows:code-review"⟩
     (by decide) (fun n _ => rfl) (fun n _ => rfl)⟩

/-- Witness for C3: `review` beats `backlog`, and a snapshot of only
terminal stories yields no action. -/
theorem c3_priority_witness :
    get_next_action [("1-a", "review"), ("2-b", "backlog")] [] =
      some ⟨"code-review", "1-a", "bmad:bmm:workflows:code-review"⟩ ∧
    get_next_action [("1-a", "done"), ("2-b", "blocked")] [] = none :=
  ⟨(c3_get_next_action_priority [("1-a", "review"), ("2-b", "backlog")]
      []).2.2.2.2.2 "1-a" "2-b",
   ((c3_get_next_action_priority [("1-a", "done"), ("2-b", "blocked")]
      []).1).mpr (by decide)⟩

/-- Witness for C4: statuses repeating in the pattern
`review, review, backlog, ...` — consecutive repeats occur but the
same-status counter never reaches 3 — run 10 phases and stop with
`max_phases`. -/
theorem c4_max_phases_witness :
    run_story_to_completion envRepeating "w-2" =
      (⟨"w-2", "max_phases",
        (List.range 10).map (fun i => (repAction i).type),
        some "Exceeded 10 total phases"⟩, 10) ∧
    (run_story_to_completion envRepeating "w-2").1.phases_completed.length
      = 10 :=
  c4_max_phases_exceeded envRepeating "w-2" repStatus repAction
    (fun n _ => rfl) (by decide) (fun n _ => rfl) (by decide)

/-- Witness for C5: `done`, `blocked` and a missing story each return
immediately with no dispatch. -/
theorem c5_terminal_witness :
    run_story_loop envDone "w-3" 0 10 none 0 [] =
      (⟨"w-3", "done", [], none⟩, 0) ∧
    run_story_loop envBlocked "w-3" 0 10 none 0 [] =
      (⟨"w-3", "blocked", [], some "Story marked as blocked"⟩, 0) ∧
    run_story_loop envMissing "w-3" 0 10 none 0 [] =
      (⟨"w-3", "not_found", [],
        some ("Story " ++ "w-3" ++ " not found in status file")⟩, 0) :=
  ⟨(c5_terminal_statuses envDone "w-3" 0 9 none 0 []).1 rfl,
   (c5_terminal_statuses envBlocked "w-3" 0 9 none 0 []).2.1 rfl,
   (c5_terminal_statuses envMissing "w-3" 0 9 none 0 []).2.2 rfl⟩


/-- Witness for C6: the spec's scenario — member `1-1-a` already done,
`1-2-b` fails blocked with a reason, `1-3-c` never attempted. -/
theorem c6_epic_witness :
    epic_stories snapshotEpic "epic-1" = ["1-1-a"] ++ "1-2-b" :: ["1-3-c"] ∧
    ((run_epic_to_completion snapshotEpic runnerEpic
        "epic-1").1.stories_completed = ["1-1-a"] ∧
      (run_epic_to_completion snapshotEpic runnerEpic
        "epic-1").1.stories_failed =
        [if pyTruthy (runnerEpic "1-2-b").intervention_reason then
          "1-2-b" ++ ": " ++ (runnerEpic "1-2-b").intervention_reason.getD ""
         else "1-2-b"] ∧
      (run_epic_to_completion snapshotEpic runnerEpic "epic-1").2 =
        List.filter (fun x => lookupKey x snapshotEpic ≠ some "done")
          ["1-1-a"] ++ ["1-2-b"] ∧
      ∀ x ∈ ["1-3-c"],
        x ∉ (run_epic_to_completion snapshotEpic runnerEpic "epic-1").2) := by
  have hsplit : epic_stories snapshotEpic "epic-1" =
      ["1-1-a"] ++ "1-2-b" :: ["1-3-c"] := by
    simp [epic_stories, snapshotEpic, List.insertionSort, List.orderedInsert]
    decide
  exact ⟨hsplit,
    (c6_epic_sequencing snapshotEpic runnerEpic "epic-1" (by decide)).2.2.2
      ["1-1-a"] "1-2-b" ["1-3-c"] hsplit (by decide) (by decide) (by decide)⟩

/-- Counterexample to C6 as literally stated: a member that fails with
an empty intervention reason (a dispatch that exited non-zero) is
recorded in `stories_failed` as the bare id, not as
`"id: reason"` — the entry contains no colon at all. -/
theorem c6_epic_counterexample :
    (run_epic_to_completion snapshotC6 failingRunner "epic-1").1.stories_failed
      = ["1-1-a"] ∧
    failingRunner "1-1-a" = ⟨"1-1-a", "failed", [], some ""⟩ ∧
    ((':' ∈ "1-1-a".toList) = false) := by
  have h : epic_stories snapshotC6 "epic-1" = ["1-1-a"] := by
    simp [epic_stories, snapshotC6, List.insertionSort, List.orderedInsert]
    decide
  refine ⟨?_, by decide, by decide⟩
  unfold run_epic_to_completion
  rw [h]
  decide


/-- Witness for C7: of two ledger records, the one with a live
container-probed pid is not stale and the one without a lock file
is. -/
theorem c7_stale_witness :
    get_stale_dispatches staleEnvSample "/proj" dispatchedSample =
      [⟨"s-2", infoDead.instance_name, infoDead.instance_path,
        infoDead.action, infoDead.started⟩] ∧
    ((⟨"s-2", infoDead.instance_name, infoDead.instance_path,
        infoDead.action, infoDead.started⟩ : StaleEntry) ∈
      get_stale_dispatches staleEnvSample "/proj" dispatchedSample ↔
      (lookupKey "s-2" (staleEnvSample.locksAt (if infoDead.instance_path ≠ ""
          then infoDead.instance_path else "/proj")) = none ∨
       ∃ lock, lookupKey "s-2" (staleEnvSample.locksAt
          (if infoDead.instance_path ≠ "" then infoDead.instance_path
           else "/proj")) = some lock ∧
        (if staleEnvSample.inside_devcontainer then
          staleEnvSample.localAlive lock.pid
         else staleEnvSample.containerAlive infoDead.instance_name lock.pid)
          = false)) :=
  ⟨by decide,
   c7_stale_classification staleEnvSample "/proj" dispatchedSample
     (by decide) "s-2" infoDead (by decide)⟩

/-- Witness for C8: acquire then release on an absent lock directory
round-trips to no directory. -/
theorem c8_lock_witness :
    ((emptyLockDir.getD []).filter (fun p => p.1 ≠ "s-1") = []) ∧
    (load_run_locks (create_run_lock emptyLockDir "s-1" "run-story"
        (some "review") 42 "t0" "alpha") =
      [("s-1", ⟨"s-1", "run-story", some "review", 42, "t0", "alpha"⟩)] ∧
    remove_run_lock (create_run_lock emptyLockDir "s-1" "run-story"
        (some "review") 42 "t0" "alpha") "s-1" = none ∧
    (∀ st2 : LockDir, lookupKey "s-1"
        ((remove_run_lock st2 "s-1").getD []) = none) ∧
    (∀ st2 : LockDir, remove_run_lock st2 "s-1" = none ↔
      (st2.getD []).filter (fun p => p.1 ≠ "s-1") = []) ∧
    (∀ st2 : LockDir, lookupKey "s-1" (st2.getD []) = none →
      (remove_run_lock st2 "s-1").getD [] = st2.getD [])) :=
  ⟨by decide,
   c8_lock_round_trip emptyLockDir "s-1" "run-story" (some "review") 42
     "t0" "alpha" (by decide)⟩

/-- Witness for C9: a directory with one valid and one corrupt lock
file. -/
theorem c9_update_witness :
    ((lockDirSample.getD []).map Prod.fst).Nodup ∧
    ((∀ d, lookupKey "s-1" (lockDirSample.getD []) = some (.valid d) →
      lookupKey "s-1"
          ((update_lock_status lockDirSample "s-1" "in-progress").getD []) =
        some (.valid ⟨d.story_id, d.action, some "in-progress", d.pid,
          d.started, d.instance_name⟩)) ∧
    (∀ k, k ≠ "s-1" →
      lookupKey k ((update_lock_status lockDirSample "s-1"
          "in-progress").getD []) =
        lookupKey k (lockDirSample.getD [])) ∧
    (lookupKey "s-1" (lockDirSample.getD []) = none →
      (update_lock_status lockDirSample "s-1" "in-progress").getD [] =
        lockDirSample.getD []) ∧
    (lookupKey "s-1" (lockDirSample.getD []) = some .corrupt →
      (update_lock_status lockDirSample "s-1" "in-progress").getD [] =
        lockDirSample.getD [])) :=
  ⟨by decide,
   c9_update_lock_frame lockDirSample "s-1" "in-progress" (by decide)⟩

/-- Witness for C10: a three-line sprint-status file with one matching
line. -/
theorem c10_update_witness :
    (nlChar ∉ "s-1".toList ∧ nlChar ∉ "in-progress".toList) ∧
    (splitOnChar nlChar (update_story_status contentC10 "s-1".toList
        "in-progress".toList) =
      (splitOnChar nlChar contentC10).map
        (updateLine "s-1".toList "in-progress".toList) ∧
    (splitOnChar nlChar (update_story_status contentC10 "s-1".toList
        "in-progress".toList)).length =
      (splitOnChar nlChar contentC10).length ∧
    (∀ line : List Char,
      ¬ ("s-1".toList ++ [':']).isPrefixOf (pyStrip line) = true →
      updateLine "s-1".toList "in-progress".toList line = line) ∧
    (∀ line : List Char,
      ("s-1".toList ++ [':']).isPrefixOf (pyStrip line) = true →
      updateLine "s-1".toList "in-progress".toList line =
        pyIndent line ++ "s-1".toList ++ ':' :: ' ' :: "in-progress".toList)) :=
  ⟨by decide,
   c10_update_story_status_frame contentC10 "s-1".toList
     "in-progress".toList (by decide) (by decide)⟩

end Bmad
